import Mathlib

/-!
Verification of the authenticated request pipeline of the taiga-mcp
repository: token acquisition and expiry tracking (src/app/core/auth.py),
request dispatch with error classification (src/app/core/client.py,
src/app/core/exceptions.py), and pagination aggregation
(src/app/services/epic_service.py, src/app/services/userstory_service.py).

The Python code is shallowly embedded: process-wide mutable state
(the AuthManager's token slot, the TaigaClient's lazily created HTTP
client) becomes explicit state passed and returned; the network is an
oracle parameter describing the remote service's responses; raised
exceptions become an explicit error type; `time.time()` becomes an
integer clock argument; observable effects (the POST to the auth
endpoint, `get_token` invocations, HTTP sends) are recorded as event
traces so that temporal claims can be stated.
-/

namespace TaigaMCP

/-! ### Configuration (src/app/config.py)

Only the fields the core pipeline reads.  Defaults: `taiga_username`
and `taiga_password` default to the empty string, `token_expiration`
to 86400 seconds. -/

structure Settings where
  taiga_username : String
  taiga_password : String
  token_expiration : Int
deriving DecidableEq, Repr

/-! ### AuthManager state (src/app/core/auth.py, lines 18-20)

`_token : Optional[str]` and `_token_expiration : float` (initially 0).
The clock is modelled as `Int`. -/

structure AuthSt where
  token : Option String
  expiration : Int
deriving DecidableEq, Repr

/-- Fresh `AuthManager()` state: `_token = None`, `_token_expiration = 0`. -/
def initAuthSt : AuthSt := { token := none, expiration := 0 }

/-- `AuthManager.is_authenticated` (auth.py lines 22-25):
`self._token is not None and time.time() < self._token_expiration`. -/
def is_authenticated (st : AuthSt) (now : Int) : Bool :=
  st.token.isSome && decide (now < st.expiration)

/-- `AuthManager.clear_token` (auth.py lines 104-107):
sets `_token = None` and `_token_expiration = 0`. -/
def clear_token (_st : AuthSt) : AuthSt :=
  { token := none, expiration := 0 }

/-- Python `a or b` for an optional string `a` and string default `b`:
both `None` and `""` are falsy, so they fall through to `b`. -/
def pyOrStr (a : Option String) (b : String) : String :=
  match a with
  | none => b
  | some s => if s.isEmpty then b else s

/-- Oracle for the outcome of `POST {api_url}/auth` inside
`AuthManager.authenticate` (auth.py lines 56-66): either
`raise_for_status` raises an `httpx.HTTPStatusError` with the given
status, or the request fails at network level (`httpx.RequestError`),
or a JSON body is returned whose `auth_token` field is present
(`some tok`) or missing (`none`, raising `KeyError` at
`data["auth_token"]`). -/
inductive AuthResp where
  | httpError (status : Int)
  | reqError (msg : String)
  | jsonOk (authToken : Option String)
deriving DecidableEq, Repr

/-- Observable authentication events: one `postAuth` per network call
to the remote authentication endpoint. -/
inductive AuthEv where
  | postAuth (username password : String)
deriving DecidableEq, Repr

/-- The raised-exception taxonomy (src/app/core/exceptions.py):
`AuthenticationError`, `TaigaAPIError(message, status_code)` and its
subclass `ResourceNotFoundError(resource_type, identifier)` which
carries status 404. -/
inductive TgError where
  | authError (msg : String)
  | apiError (msg : String) (status : Option Int)
  | notFound (resourceType identifier : String)
deriving DecidableEq, Repr

/-- Error message for missing credentials (auth.py lines 48-52). -/
def msgCredsRequired : String :=
  "Username and password are required. Please provide them or set TAIGA_USERNAME and TAIGA_PASSWORD environment variables."

/-- `AuthManager.authenticate` (auth.py lines 27-86).  Returns the new
auth state, the trace of network calls made, and either the token or
the raised `AuthenticationError`.  Every failure path of the Python
code raises before `self._token` / `self._token_expiration` are
assigned (the `KeyError` of `data["auth_token"]` fires while
evaluating the right-hand side of the assignment), so every failure
path here returns the input state unchanged. -/
def authenticate (cfg : Settings) (env : AuthResp) (now : Int)
    (st : AuthSt) (username password : Option String) :
    AuthSt × List AuthEv × Except TgError String :=
  let user := pyOrStr username cfg.taiga_username
  let pwd := pyOrStr password cfg.taiga_password
  if user.isEmpty || pwd.isEmpty then
    (st, [], .error (.authError msgCredsRequired))
  else
    let evs := [AuthEv.postAuth user pwd]
    match env with
    | .httpError status =>
        if status == 400 then
          (st, evs, .error (.authError
            "Invalid credentials. Please check your username and password."))
        else
          (st, evs, .error (.authError "Authentication failed: HTTP status error"))
    | .reqError m =>
        (st, evs, .error (.authError ("Failed to connect to Taiga API: " ++ m)))
    | .jsonOk none =>
        (st, evs, .error (.authError
          "Unexpected response format from Taiga API: missing 'auth_token'"))
    | .jsonOk (some tok) =>
        ({ token := some tok, expiration := now + cfg.token_expiration },
         evs, .ok tok)

/-- `AuthManager.get_token` (auth.py lines 88-102): authenticate (with
no arguments) when not `is_authenticated`, then return `self._token`. -/
def get_token (cfg : Settings) (env : AuthResp) (now : Int) (st : AuthSt) :
    AuthSt × List AuthEv × Except TgError String :=
  if is_authenticated st now then
    (st, [], .ok (st.token.getD ""))
  else
    match authenticate cfg env now st none none with
    | (st', evs, .error e) => (st', evs, .error e)
    | (st', evs, .ok _) => (st', evs, .ok (st'.token.getD ""))

/-! ### Error classification (src/app/core/client.py, lines 145-169)

`TaigaClient._handle_error` inspects the status code of an
`httpx.HTTPStatusError` and raises one typed exception.  The response
body is modelled as `Option (List (String × String))`: `some kvs` when
`error.response.json()` yields a JSON object (its string-valued
fields), `none` when parsing fails (or the body is not an object, in
which case `.get` raises and the bare `except` also takes the
fallback).  `text` models `str(error)`. -/

structure ErrResp where
  status : Int
  body : Option (List (String × String))
  text : String
deriving DecidableEq, Repr

/-- Python `s.split(sep)` for a single-character separator, on the
character list of the string.  `"".split("/") == [""]` and
`"/a/b".split("/") == ["", "a", "b"]`. -/
def splitOnChar (sep : Char) : List Char → List (List Char)
  | [] => [[]]
  | c :: cs =>
    match splitOnChar sep cs with
    | [] => [[]]
    | r :: rs => if c = sep then [] :: r :: rs else (c :: r) :: rs

/-- Python `d.get(key, default)` on the modelled JSON object. -/
def lookupField (kvs : List (String × String)) (key deflt : String) : String :=
  match kvs.find? (fun p => p.1 == key) with
  | some p => p.2
  | none => deflt

/-- `TaigaClient._handle_error` (client.py lines 145-169).  Returns the
(possibly updated, for the 401 case) auth state together with the one
exception raised.  `resource_type` is `path.split("/")[1]` when the
path contains a slash, else `"Resource"`. -/
def handle_error (er : ErrResp) (path : String) (auth : AuthSt) :
    AuthSt × TgError :=
  if er.status == 404 then
    let resource_type :=
      if path.toList.contains '/' then
        String.mk ((splitOnChar '/' path.toList).getD 1 [])
      else "Resource"
    (auth, .notFound resource_type path)
  else if er.status == 401 then
    (clear_token auth,
     .apiError "Authentication failed. Token may be invalid." (some er.status))
  else if er.status == 403 then
    (auth,
     .apiError "Permission denied. You don't have access to this resource."
       (some er.status))
  else
    let error_message :=
      match er.body with
      | some kvs => lookupField kvs "_error_message" er.text
      | none => er.text
    (auth, .apiError ("API request failed: " ++ error_message) (some er.status))

/-- Spec-side reading of "the first path segment": for a request path
that begins with "/", the text between the leading slash and the next
slash.  Every request path issued by this repository's services begins
with "/". -/
def firstPathSegment (path : String) : String :=
  String.mk ((path.toList.drop 1).takeWhile (fun c => c ≠ '/'))

/-! ### Transport (src/app/core/client.py, lines 12-143)

`TaigaClient` holds `_client : Optional[httpx.AsyncClient]`; the
client, once created by `_ensure_client`, carries the bearer token in
its `Authorization` header for the rest of its life.  We model the
client slot by the token its header was built from, and record the
observable events of a call: `tokenReq` for each `get_token()`
invocation and `send` for each HTTP request actually transmitted,
with the `Authorization` header value it carried. -/

inductive Method where
  | GET | POST | PATCH | DELETE
deriving DecidableEq, Repr

inductive TEv where
  | tokenReq
  | send (m : Method) (path : String) (authHeader : String)
deriving DecidableEq, Repr

def TEv.isSend : TEv → Bool
  | .send _ _ _ => true
  | .tokenReq => false

def TEv.isTokenReq : TEv → Bool
  | .tokenReq => true
  | .send _ _ _ => false

structure ClSys where
  auth : AuthSt
  cl : Option String
deriving DecidableEq, Repr

/-- `TaigaClient._ensure_client` (client.py lines 27-38): when
`_client is None`, obtain a token via `auth_manager.get_token()` and
create the client with header `Authorization: Bearer <token>`;
otherwise do nothing. -/
def ensure_client (cfg : Settings) (aenv : AuthResp) (now : Int)
    (s : ClSys) : ClSys × List TEv × Except TgError Unit :=
  match s.cl with
  | some _ => (s, [], .ok ())
  | none =>
    match get_token cfg aenv now s.auth with
    | (a', _, .error e) => ({ s with auth := a' }, [.tokenReq], .error e)
    | (a', _, .ok tok) => ({ auth := a', cl := some tok }, [.tokenReq], .ok ())

/-- Oracle for the outcome of one transmitted HTTP request: a 2xx
success, an error status (caught as `httpx.HTTPStatusError` and routed
to `_handle_error`), or a network-level `httpx.RequestError`. -/
inductive ReqOutcome where
  | success
  | httpError (er : ErrResp)
  | netError (msg : String)
deriving DecidableEq, Repr

/-- Common body of `TaigaClient.get` / `.post` / `.patch` / `.delete`
(client.py lines 46-143): ensure the client, transmit once, and on an
error status raise via `_handle_error`; on a network error raise
`TaigaAPIError(f"Request failed: {e}")`.  No retry of any kind.  The
response payload is irrelevant to the claims and elided. -/
def doRequest (cfg : Settings) (aenv : AuthResp) (now : Int) (m : Method)
    (path : String) (out : ReqOutcome) (s : ClSys) :
    ClSys × List TEv × Except TgError Unit :=
  match ensure_client cfg aenv now s with
  | (s', tr, .error e) => (s', tr, .error e)
  | (s', tr, .ok _) =>
    let header := "Bearer " ++ s'.cl.getD ""
    let tr := tr ++ [TEv.send m path header]
    match out with
    | .success => (s', tr, .ok ())
    | .httpError er =>
        let he := handle_error er path s'.auth
        ({ s' with auth := he.1 }, tr, .error he.2)
    | .netError msg =>
        (s', tr, .error (.apiError ("Request failed: " ++ msg) none))

/-- One HTTP-verb call on the shared client, with the response the
remote would give it. -/
structure Op where
  m : Method
  path : String
  out : ReqOutcome
deriving DecidableEq, Repr

/-- Run a sequence of verb calls against one `TaigaClient`, collecting
the event trace; a raised exception propagates out of the tool
invocation, aborting the rest of the sequence. -/
def runOps (cfg : Settings) (aenv : AuthResp) (now : Int) :
    List Op → ClSys → ClSys × List TEv
  | [], s => (s, [])
  | op :: ops, s =>
    match doRequest cfg aenv now op.m op.path op.out s with
    | (s', tr, .error _) => (s', tr)
    | (s', tr, .ok _) =>
        let r := runOps cfg aenv now ops s'
        (r.1, tr ++ r.2)

/-! ### Paginated list services
(src/app/services/epic_service.py lines 16-82,
src/app/services/userstory_service.py lines 20-86)

`list_epics` / `list_user_stories` drive `client.get(path, params)`
repeatedly.  The remote is the oracle `net : Option Int → List J`,
giving the JSON array returned for the query parameters
`{project, page_size}` plus, when present, `page` (the claims quantify
over benign page responses; a transport failure propagates and is out
of these claims' scope).  The item decoder `dec : J → α` models
`Epic(**item)` / `UserStory(**item)`.  The result records the full
ordered sequence of requests issued, so "before any request" and
"request order" are statable. -/

structure PageParams where
  project : Int
  page_size : Int
  page : Option Int
deriving DecidableEq, Repr

structure PReq where
  path : String
  params : PageParams
deriving DecidableEq, Repr

inductive ListResult (α : Type) where
  | valueError (msg : String)
  | ok (requests : List PReq) (items : List α)
deriving DecidableEq, Repr

/-- The requests a list call issued (none when it raised `ValueError`
before any request). -/
def requestsOf {α : Type} : ListResult α → List PReq
  | .valueError _ => []
  | .ok reqs _ => reqs

/-- The `while current_page <= max_pages` loop of the `fetch_all`
branch (epic_service.py lines 49-75, userstory_service.py lines
53-79).  `fuel` is the number of loop iterations still allowed by the
`current_page <= max_pages` guard, i.e. `max_pages - current_page + 1`;
the loop is entered with `current_page = 1` and `max_pages = 1000`, so
with fuel 1000.  Returns the page numbers requested (in request order)
and the accumulated decoded items.  An empty page is dropped before
the extend; a short page is extended, then ends the loop. -/
def fetchLoop {J α : Type} (net : Int → List J) (dec : J → α)
    (page_size : Int) : Int → Nat → List Int × List α
  | _, 0 => ([], [])
  | p, f + 1 =>
    let data := net p
    if data.isEmpty then ([p], [])
    else if (data.length : Int) < page_size then ([p], data.map dec)
    else
      let r := fetchLoop net dec page_size (p + 1) f
      (p :: r.1, data.map dec ++ r.2)

/-- `EpicService.list_epics` (epic_service.py lines 16-82). -/
def list_epics {J E : Type} (dec : J → E) (net : Option Int → List J)
    (project_id : Int) (page_size : Int) (page : Option Int)
    (fetch_all : Bool) : ListResult E :=
  if page_size < 1 || 100 < page_size then
    .valueError "page_size must be between 1 and 100"
  else if page.isSome && !fetch_all then
    let p := page.getD 0
    .ok [{ path := "/epics", params := { project := project_id, page_size := page_size, page := some p } }]
      ((net (some p)).map dec)
  else if fetch_all then
    let r := fetchLoop (fun p => net (some p)) dec page_size 1 1000
    .ok (r.1.map (fun p => { path := "/epics", params := { project := project_id, page_size := page_size, page := some p } }))
      r.2
  else
    .ok [{ path := "/epics", params := { project := project_id, page_size := page_size, page := none } }]
      ((net none).map dec)

/-- `UserStoryService.list_user_stories` (userstory_service.py lines
20-86). -/
def list_user_stories {J U : Type} (dec : J → U) (net : Option Int → List J)
    (project_id : Int) (page_size : Int) (page : Option Int)
    (fetch_all : Bool) : ListResult U :=
  if page_size < 1 || 100 < page_size then
    .valueError "page_size must be between 1 and 100"
  else if page.isSome && !fetch_all then
    let p := page.getD 0
    .ok [{ path := "/userstories", params := { project := project_id, page_size := page_size, page := some p } }]
      ((net (some p)).map dec)
  else if fetch_all then
    let r := fetchLoop (fun p => net (some p)) dec page_size 1 1000
    .ok (r.1.map (fun p => { path := "/userstories", params := { project := project_id, page_size := page_size, page := some p } }))
      r.2
  else
    .ok [{ path := "/userstories", params := { project := project_id, page_size := page_size, page := none } }]
      ((net none).map dec)

/-- The single pagination function of the spec (§4.3), parameterized
only by resource path and item decoder; both services are proved to be
instances of it. -/
def listPaged {J α : Type} (path : String) (dec : J → α)
    (net : Option Int → List J) (project_id : Int) (page_size : Int)
    (page : Option Int) (fetch_all : Bool) : ListResult α :=
  if page_size < 1 || 100 < page_size then
    .valueError "page_size must be between 1 and 100"
  else if page.isSome && !fetch_all then
    let p := page.getD 0
    .ok [{ path := path, params := { project := project_id, page_size := page_size, page := some p } }]
      ((net (some p)).map dec)
  else if fetch_all then
    let r := fetchLoop (fun p => net (some p)) dec page_size 1 1000
    .ok (r.1.map (fun p => { path := path, params := { project := project_id, page_size := page_size, page := some p } }))
      r.2
  else
    .ok [{ path := path, params := { project := project_id, page_size := page_size, page := none } }]
      ((net none).map dec)

/-- Consecutive integer pages `start, start+1, ..., start+n-1`. -/
def intRange (start : Int) : Nat → List Int
  | 0 => []
  | n + 1 => start :: intRange (start + 1) n

/-- Spec-side description of one `fetch_all = true` aggregation run:
some number `n` of pages, `1 ≤ n ≤ 1000`, was requested — pages
`1, 2, ..., n` in order, each with query `{project, page_size, page}`
against `path` — and the result is the concatenation of the decoded
pages in request order; every page before the last was not short
(so the stop happened at the FIRST empty-or-short page), and the last
page is short (empty counts as short, since `page_size ≥ 1`) unless
the 1000-page safety ceiling ended the run. -/
def FetchAllBehaviour {J α : Type} (path : String) (dec : J → α)
    (net : Option Int → List J) (project_id page_size : Int)
    (res : ListResult α) : Prop :=
  ∃ n : Nat, 1 ≤ n ∧ n ≤ 1000 ∧
    res = .ok
      ((intRange 1 n).map (fun p => { path := path, params := { project := project_id, page_size := page_size, page := some p } }))
      (((intRange 1 n).map (fun p => (net (some p)).map dec)).flatten) ∧
    (∀ p : Int, 1 ≤ p → p < (n : Int) → page_size ≤ ((net (some p)).length : Int)) ∧
    (n = 1000 ∨ ((net (some (n : Int))).length : Int) < page_size)

/-! ### Shared fixtures and helper lemmas -/

/-- A concrete configuration with credentials present. -/
def cfg0 : Settings :=
  { taiga_username := "alice", taiga_password := "pw", token_expiration := 86400 }

/-- A successful `authenticate` run leaves exactly the returned token
in the token slot. -/
theorem authenticate_ok_token (cfg : Settings) (env : AuthResp) (now : Int)
    (st : AuthSt) (u p : Option String) (tok : String)
    (h : (authenticate cfg env now st u p).2.2 = .ok tok) :
    (authenticate cfg env now st u p).1.token = some tok := by
  cases env with
  | httpError s =>
      unfold authenticate at h ⊢
      dsimp only at h ⊢
      split_ifs at h ⊢
  | reqError m =>
      unfold authenticate at h ⊢
      dsimp only at h ⊢
      split_ifs at h ⊢
  | jsonOk tk =>
      cases tk with
      | none =>
          unfold authenticate at h ⊢
          dsimp only at h ⊢
          split_ifs at h ⊢
      | some t =>
          unfold authenticate at h ⊢
          dsimp only at h ⊢
          split_ifs at h ⊢
          simp_all

/-- A successful `get_token` run leaves exactly the returned token in
the token slot. -/
theorem get_token_ok_token (cfg : Settings) (env : AuthResp) (t1 : Int)
    (st : AuthSt) (tok : String)
    (h : (get_token cfg env t1 st).2.2 = .ok tok) :
    (get_token cfg env t1 st).1.token = some tok := by
  unfold get_token at h ⊢
  by_cases ha : is_authenticated st t1
  · simp only [ha, if_true] at h ⊢
    have hs : st.token.isSome = true := by
      have ha' := ha
      simp [is_authenticated] at ha'
      exact ha'.1
    rcases hst : st.token with _ | t
    · rw [hst] at hs; simp at hs
    · rw [hst] at h; simpa using h
  · simp only [ha, if_false, Bool.false_eq_true] at h ⊢
    rcases hA : authenticate cfg env t1 st none none with ⟨st', evs, r⟩
    rw [hA] at h
    cases r with
    | error e => simp at h
    | ok tk =>
        have htk := authenticate_ok_token cfg env t1 st none none tk
          (by rw [hA])
        rw [hA] at htk
        dsimp only at h htk ⊢
        rw [htk] at h ⊢
        simpa using h

/-! ### Claim theorems -/

/-- Claim C3: for all expiry instants and current times,
`is_authenticated` holds iff a token is cached and the current time is
strictly before the expiry; `clear_token` unconditionally drops the
token and resets the expiry to the epoch, so afterwards
`is_authenticated` is false at every time. -/
theorem is_authenticated_iff_and_clear (st : AuthSt) (t : Int) :
    (is_authenticated st t = true ↔ st.token.isSome = true ∧ t < st.expiration) ∧
    is_authenticated (clear_token st) t = false ∧
    (clear_token st).token = none ∧ (clear_token st).expiration = 0 := by
  refine ⟨?_, ?_, rfl, rfl⟩
  · simp [is_authenticated]
  · simp [is_authenticated, clear_token]

/-- Claim C8: `authenticate()` with no arguments, under a
configuration whose username and password are both empty, fails with
`AuthenticationError` making no network call (empty event trace) and
leaving the state unchanged. -/
theorem authenticate_empty_creds_no_network (ttl : Int) (env : AuthResp)
    (now : Int) (st : AuthSt) :
    authenticate { taiga_username := "", taiga_password := "", token_expiration := ttl }
        env now st none none
      = (st, [], .error (.authError msgCredsRequired)) := by
  have he : "".isEmpty = true := rfl
  simp [authenticate, pyOrStr, he]

/-- Claim C10: every failing `authenticate` run — missing credentials,
an HTTP error status from the auth endpoint, a network-level failure,
or a response body missing the `auth_token` field — leaves the token
slot and expiry instant exactly as they were. -/
theorem authenticate_failure_preserves_state (cfg : Settings)
    (env : AuthResp) (now : Int) (st : AuthSt) (u p : Option String)
    (e : TgError)
    (h : (authenticate cfg env now st u p).2.2 = .error e) :
    (authenticate cfg env now st u p).1 = st := by
  unfold authenticate at h ⊢
  dsimp only at h ⊢
  split_ifs at h ⊢
  · rfl
  · cases env with
    | httpError s =>
        by_cases h4 : (s == 400) = true <;> simp [h4]
    | reqError m => rfl
    | jsonOk tk =>
        cases tk with
        | none => rfl
        | some t => simp at h

/-- Witness for C10 at a concrete failing input: the auth endpoint
answers 500 while a valid token is cached; the cached state survives. -/
theorem authenticate_failure_preserves_state_witness :
    (authenticate cfg0 (.httpError 500) 7
        { token := some "tk", expiration := 99 } none none).2.2
      = .error (.authError "Authentication failed: HTTP status error") ∧
    (authenticate cfg0 (.httpError 500) 7
        { token := some "tk", expiration := 99 } none none).1
      = { token := some "tk", expiration := 99 } :=
  ⟨rfl, authenticate_failure_preserves_state cfg0 (.httpError 500) 7
    { token := some "tk", expiration := 99 } none none
    (.authError "Authentication failed: HTTP status error") rfl⟩

/-- Claim C5: when `is_authenticated` holds, `get_token` returns the
cached token with no authentication exchange (empty event trace) and
no state change; otherwise it performs `authenticate()` with no
arguments (same resulting state and same network trace); consequently
a second `get_token` after a successful one, with no intervening
expiry or `clear_token`, returns the identical token with no second
authentication call. -/
theorem get_token_caching (cfg : Settings) (env env2 : AuthResp)
    (t1 t2 : Int) (st : AuthSt) :
    (is_authenticated st t1 = true →
      get_token cfg env t1 st = (st, [], .ok (st.token.getD ""))) ∧
    (is_authenticated st t1 = false →
      (get_token cfg env t1 st).1 = (authenticate cfg env t1 st none none).1 ∧
      (get_token cfg env t1 st).2.1 = (authenticate cfg env t1 st none none).2.1) ∧
    (∀ tok, (get_token cfg env t1 st).2.2 = .ok tok →
      is_authenticated (get_token cfg env t1 st).1 t2 = true →
      get_token cfg env2 t2 (get_token cfg env t1 st).1
        = ((get_token cfg env t1 st).1, [], .ok tok)) := by
  refine ⟨?_, ?_, ?_⟩
  · intro h
    simp [get_token, h]
  · intro h
    unfold get_token
    simp only [h, Bool.false_eq_true, if_false]
    rcases hA : authenticate cfg env t1 st none none with ⟨st', evs, r⟩
    cases r <;> simp
  · intro tok h hv
    have htk := get_token_ok_token cfg env t1 st tok h
    set st1 := (get_token cfg env t1 st).1 with hst1
    unfold get_token
    simp only [hv, if_true]
    rw [htk]
    rfl

/-- Witness for C5: with a valid cached token "tk", a second
`get_token` straight after the first returns the identical token,
unchanged state and an empty authentication trace. -/
theorem get_token_caching_witness :
    get_token cfg0 (.reqError "down") 6
        (get_token cfg0 (.reqError "down") 5
          { token := some "tk", expiration := 10 }).1
      = ((get_token cfg0 (.reqError "down") 5
          { token := some "tk", expiration := 10 }).1, [], .ok "tk") :=
  (get_token_caching cfg0 (.reqError "down") (.reqError "down") 5 6
    { token := some "tk", expiration := 10 }).2.2 "tk" rfl rfl

/-- Claim C6: both paginated list operations fail with the validation
error, before any HTTP request is issued, exactly when the page size
lies outside [1, 100]; inside the range no validation error is
raised. -/
theorem page_size_validation {J E U : Type} (decE : J → E) (decU : J → U)
    (net : Option Int → List J) (pid ps : Int) (page : Option Int)
    (fa : Bool) :
    ((list_epics decE net pid ps page fa
        = .valueError "page_size must be between 1 and 100")
      ↔ ps < 1 ∨ 100 < ps) ∧
    ((list_user_stories decU net pid ps page fa
        = .valueError "page_size must be between 1 and 100")
      ↔ ps < 1 ∨ 100 < ps) ∧
    ((ps < 1 ∨ 100 < ps) →
      requestsOf (list_epics decE net pid ps page fa) = [] ∧
      requestsOf (list_user_stories decU net pid ps page fa) = []) := by
  by_cases h : ps < 1 ∨ 100 < ps
  · have hb : (decide (ps < 1) || decide (100 < ps)) = true := by
      rcases h with h | h <;> simp [h]
    unfold list_epics list_user_stories
    simp [hb, h, requestsOf]
  · have h1 : ¬ ps < 1 := fun hc => h (Or.inl hc)
    have h2 : ¬ 100 < ps := fun hc => h (Or.inr hc)
    have hb : (decide (ps < 1) || decide (100 < ps)) = false := by
      simp [h1, h2]
    unfold list_epics list_user_stories
    simp only [hb, Bool.false_eq_true, if_false]
    refine ⟨?_, ?_, fun hc => absurd hc h⟩ <;>
      (constructor
       · intro hc
         exfalso
         revert hc
         split_ifs <;> simp
       · intro hc
         exact absurd hc h)

/-- Witness for C6 at `page_size = 0`: the validation error fires and
no request is issued. -/
theorem page_size_validation_witness :
    ((0:Int) < 1 ∨ 100 < (0:Int)) ∧
    list_epics (fun j : Nat => j) (fun _ => ([] : List Nat)) 1 0 none true
      = .valueError "page_size must be between 1 and 100" ∧
    requestsOf (list_epics (fun j : Nat => j) (fun _ => ([] : List Nat))
      1 0 none true) = [] :=
  ⟨Or.inl (by decide),
   (page_size_validation (fun j : Nat => j) (fun j => j) (fun _ => [])
      1 0 none true).1.mpr (Or.inl (by decide)),
   ((page_size_validation (fun j : Nat => j) (fun j => j) (fun _ => [])
      1 0 none true).2.2 (Or.inl (by decide))).1⟩

/-- `splitOnChar` always produces at least one piece (as Python's
`str.split` does). -/
theorem splitOnChar_ne_nil (sep : Char) (l : List Char) :
    splitOnChar sep l ≠ [] := by
  cases l with
  | nil => simp [splitOnChar]
  | cons c cs =>
    unfold splitOnChar
    rcases h : splitOnChar sep cs with _ | ⟨r, rs⟩
    · simp
    · split_ifs <;> simp

/-- The first piece of a split is the leading run of non-separator
characters. -/
theorem splitOnChar_headI (sep : Char) (l : List Char) :
    (splitOnChar sep l).headI = l.takeWhile (fun c => c ≠ sep) := by
  induction l with
  | nil => simp [splitOnChar]
  | cons c cs ih =>
    unfold splitOnChar
    rcases h : splitOnChar sep cs with _ | ⟨r, rs⟩
    · exact absurd h (splitOnChar_ne_nil sep cs)
    · rw [h] at ih
      by_cases hc : c = sep
      · simp [hc, List.takeWhile_cons]
      · simp only [List.headI] at ih
        simp [hc, List.takeWhile_cons]
        rw [show (fun c => !decide (c = sep)) = (fun c : Char => decide (c ≠ sep)) by
          funext x; simp [decide_not]]
        exact ih.symm ▸ rfl

/-- For a path that begins with "/", `path.split("/")[1]` is exactly
the first path segment. -/
theorem split_index_one_eq_firstSegment (path : String) (rest : List Char)
    (hpath : path.toList = '/' :: rest) :
    String.mk ((splitOnChar '/' path.toList).getD 1 []) = firstPathSegment path := by
  unfold firstPathSegment
  rw [hpath]
  congr 1
  unfold splitOnChar
  rcases h : splitOnChar '/' rest with _ | ⟨r, rs⟩
  · exact absurd h (splitOnChar_ne_nil '/' rest)
  · have hh := splitOnChar_headI '/' rest
    rw [h] at hh
    simpa using hh

/-- Claim C2: for a non-2xx response, `_handle_error` raises exactly
one typed error, chosen by the ordered rules: 404 first
(`ResourceNotFoundError` whose resource type is the first path
segment — every request path this repository issues begins with "/" —
and whose identifier is the full request path), then 401, then 403,
then the generic `TaigaAPIError` carrying the `_error_message` field
of the parsed JSON body with the raw error text as fallback, together
with the status code. -/
theorem error_classification (path : String) (rest : List Char)
    (hpath : path.toList = '/' :: rest) (er : ErrResp) (auth : AuthSt) :
    (er.status = 404 →
      handle_error er path auth
        = (auth, .notFound (firstPathSegment path) path)) ∧
    (er.status ≠ 404 → er.status = 401 →
      handle_error er path auth
        = (clear_token auth,
           .apiError "Authentication failed. Token may be invalid." (some 401))) ∧
    (er.status ≠ 404 → er.status ≠ 401 → er.status = 403 →
      handle_error er path auth
        = (auth,
           .apiError "Permission denied. You don't have access to this resource."
             (some 403))) ∧
    (er.status ≠ 404 → er.status ≠ 401 → er.status ≠ 403 →
      (∀ kvs, er.body = some kvs →
        handle_error er path auth
          = (auth, .apiError
              ("API request failed: " ++ lookupField kvs "_error_message" er.text)
              (some er.status))) ∧
      (er.body = none →
        handle_error er path auth
          = (auth, .apiError ("API request failed: " ++ er.text)
              (some er.status)))) := by
  refine ⟨?_, ?_, ?_, ?_⟩
  · intro h404
    unfold handle_error
    have hcon : path.toList.contains '/' = true := by
      rw [hpath]; simp [List.contains_cons]
    simp only [h404, beq_self_eq_true, if_true, hcon]
    rw [split_index_one_eq_firstSegment path rest hpath]
  · intro h404 h401
    unfold handle_error
    simp [h404, h401]
  · intro h404 h401 h403
    unfold handle_error
    simp [h404, h401, h403]
  · intro h404 h401 h403
    constructor
    · intro kvs hkvs
      unfold handle_error
      simp [h404, h401, h403, hkvs]
    · intro hb
      unfold handle_error
      simp [h404, h401, h403, hb]

/-- Witness for C2: a 404 on `GET /epics/999` yields
`ResourceNotFoundError` with resource type "epics" and identifier
"/epics/999". -/
theorem error_classification_witness :
    handle_error { status := 404, body := none, text := "boom" }
        "/epics/999" initAuthSt
      = (initAuthSt, .notFound "epics" "/epics/999") := by
  rw [(error_classification "/epics/999" "epics/999".toList rfl
    { status := 404, body := none, text := "boom" } initAuthSt).1 rfl]
  decide

/-- `_ensure_client` transmits nothing: its trace holds no send
event. -/
theorem ensure_client_no_send (cfg : Settings) (aenv : AuthResp) (now : Int)
    (s : ClSys) :
    ((ensure_client cfg aenv now s).2.1.filter TEv.isSend) = [] := by
  unfold ensure_client
  cases hcl : s.cl with
  | some t => simp
  | none =>
    rcases hG : get_token cfg aenv now s.auth with ⟨a', evs, r⟩
    cases r <;> simp [TEv.isSend]

/-- Claim C4: a request whose client was successfully ensured and
which receives HTTP 401 raises
`TaigaAPIError("Authentication failed. Token may be invalid.", 401)`,
leaves the token slot cleared (not authenticated at any time
afterwards), and transmits exactly one request — no automatic
retry. -/
theorem request_401_clears_token (cfg : Settings) (aenv : AuthResp)
    (now : Int) (m : Method) (path : String) (er : ErrResp) (s : ClSys)
    (h401 : er.status = 401)
    (hok : (ensure_client cfg aenv now s).2.2 = .ok ()) :
    (doRequest cfg aenv now m path (.httpError er) s).2.2
      = .error (.apiError "Authentication failed. Token may be invalid."
          (some 401)) ∧
    (doRequest cfg aenv now m path (.httpError er) s).1.auth.token = none ∧
    (∀ t, is_authenticated
        (doRequest cfg aenv now m path (.httpError er) s).1.auth t = false) ∧
    ((doRequest cfg aenv now m path (.httpError er) s).2.1.filter
        TEv.isSend).length = 1 := by
  have hhe : ∀ a, handle_error er path a
      = (clear_token a,
         .apiError "Authentication failed. Token may be invalid." (some 401)) := by
    intro a
    unfold handle_error
    simp [h401]
  have hns := ensure_client_no_send cfg aenv now s
  rcases hE : ensure_client cfg aenv now s with ⟨s', tr, r⟩
  rw [hE] at hok hns
  cases r with
  | error e => simp at hok
  | ok u =>
      cases u
      unfold doRequest
      rw [hE]
      dsimp only
      rw [hhe s'.auth]
      refine ⟨rfl, rfl, ?_, ?_⟩
      · intro t
        simp [is_authenticated, clear_token]
      · simp only at hns
        rw [List.filter_append, hns]
        simp [TEv.isSend]

/-- Witness for C4: concrete 401 on an already-established client. -/
theorem request_401_clears_token_witness :
    (doRequest cfg0 (.reqError "down") 5 .GET "/epics/3"
        (.httpError { status := 401, body := none, text := "e" })
        { auth := { token := some "tk", expiration := 10 }, cl := some "tk" }).2.2
      = .error (.apiError "Authentication failed. Token may be invalid."
          (some 401)) ∧
    (doRequest cfg0 (.reqError "down") 5 .GET "/epics/3"
        (.httpError { status := 401, body := none, text := "e" })
        { auth := { token := some "tk", expiration := 10 }, cl := some "tk" }).1.auth.token
      = none :=
  ⟨(request_401_clears_token cfg0 (.reqError "down") 5 .GET "/epics/3"
      { status := 401, body := none, text := "e" }
      { auth := { token := some "tk", expiration := 10 }, cl := some "tk" }
      rfl rfl).1,
   (request_401_clears_token cfg0 (.reqError "down") 5 .GET "/epics/3"
      { status := 401, body := none, text := "e" }
      { auth := { token := some "tk", expiration := 10 }, cl := some "tk" }
      rfl rfl).2.1⟩

/-- On an already-established client, one verb call transmits exactly
one request carrying the stored bearer header, keeps the client slot,
and invokes `get_token` zero times. -/
theorem doRequest_established (cfg : Settings) (aenv : AuthResp) (now : Int)
    (m : Method) (path : String) (out : ReqOutcome) (s : ClSys) (tok : String)
    (h : s.cl = some tok) :
    (doRequest cfg aenv now m path out s).1.cl = some tok ∧
    (doRequest cfg aenv now m path out s).2.1
      = [TEv.send m path ("Bearer " ++ tok)] := by
  unfold doRequest ensure_client
  rw [h]
  dsimp only
  cases out with
  | success => simp [h]
  | httpError er => simp [h]
  | netError msg => simp [h]

/-- On an already-established client, a whole run of verb calls never
invokes `get_token` again: every event is a send with the stored
bearer header, and the client slot survives the run. -/
theorem runOps_established (cfg : Settings) (aenv : AuthResp) (now : Int)
    (ops : List Op) (s : ClSys) (tok : String) (h : s.cl = some tok) :
    (runOps cfg aenv now ops s).1.cl = some tok ∧
    ∀ ev ∈ (runOps cfg aenv now ops s).2,
      ∃ m p, ev = TEv.send m p ("Bearer " ++ tok) := by
  induction ops generalizing s with
  | nil => simp [runOps, h]
  | cons op ops ih =>
    unfold runOps
    have hDe := doRequest_established cfg aenv now op.m op.path op.out s tok h
    rcases hD : doRequest cfg aenv now op.m op.path op.out s with ⟨s', tr, r⟩
    rw [hD] at hDe
    simp only at hDe
    cases r with
    | error e =>
        dsimp only
        refine ⟨hDe.1, ?_⟩
        rw [hDe.2]
        intro ev hev
        simp only [List.mem_singleton] at hev
        exact ⟨op.m, op.path, hev⟩
    | ok u =>
        dsimp only
        obtain ⟨ih1, ih2⟩ := ih s' hDe.1
        refine ⟨ih1, ?_⟩
        intro ev hev
        rw [hDe.2] at hev
        rcases List.mem_append.mp hev with h1 | h2
        · simp only [List.mem_singleton] at h1
          exact ⟨op.m, op.path, h1⟩
        · exact ih2 ev h2

/-- First verb call on a fresh client, whenever `get_token` succeeds
(from the cache or by authenticating at establishment): `get_token`
is invoked (once), then the one request is sent with the bearer
header built from the returned token. -/
theorem doRequest_first (cfg : Settings) (aenv : AuthResp) (now : Int)
    (m : Method) (path : String) (out : ReqOutcome) (st : AuthSt)
    (tok : String) (hok : (get_token cfg aenv now st).2.2 = .ok tok) :
    (doRequest cfg aenv now m path out { auth := st, cl := none }).1.cl
      = some tok ∧
    (doRequest cfg aenv now m path out { auth := st, cl := none }).2.1
      = [TEv.tokenReq, TEv.send m path ("Bearer " ++ tok)] := by
  unfold doRequest ensure_client
  dsimp only
  rcases hG : get_token cfg aenv now st with ⟨a', evs, r⟩
  rw [hG] at hok
  cases r with
  | error e => simp at hok
  | ok tk =>
      have htk : tk = tok := by simpa using hok
      subst htk
      dsimp only
      cases out with
      | success => simp
      | httpError er => simp
      | netError msg => simp

/-- Claim C7, counterexample to the per-request reading: two
successful GETs on one `TaigaClient` (with a valid cached token)
transmit two requests but invoke `get_token` only once — the token is
obtained when the client is first established, not before every
request. -/
theorem token_per_request_counterexample :
    ((runOps cfg0 (.reqError "down") 5
        [{ m := .GET, path := "/epics", out := .success },
         { m := .GET, path := "/projects", out := .success }]
        { auth := { token := some "tk", expiration := 10 }, cl := none }).2.filter
        TEv.isSend).length = 2 ∧
    ((runOps cfg0 (.reqError "down") 5
        [{ m := .GET, path := "/epics", out := .success },
         { m := .GET, path := "/projects", out := .success }]
        { auth := { token := some "tk", expiration := 10 }, cl := none }).2.filter
        TEv.isTokenReq).length = 1 ∧
    ¬ ((runOps cfg0 (.reqError "down") 5
        [{ m := .GET, path := "/epics", out := .success },
         { m := .GET, path := "/projects", out := .success }]
        { auth := { token := some "tk", expiration := 10 }, cl := none }).2.filter
        TEv.isTokenReq).length
      = ((runOps cfg0 (.reqError "down") 5
        [{ m := .GET, path := "/epics", out := .success },
         { m := .GET, path := "/projects", out := .success }]
        { auth := { token := some "tk", expiration := 10 }, cl := none }).2.filter
        TEv.isSend).length := by
  refine ⟨rfl, rfl, ?_⟩
  intro h
  simp only [show ((runOps cfg0 (.reqError "down") 5
      [{ m := .GET, path := "/epics", out := .success },
       { m := .GET, path := "/projects", out := .success }]
      { auth := { token := some "tk", expiration := 10 }, cl := none }).2.filter
      TEv.isTokenReq).length = 1 from rfl,
    show ((runOps cfg0 (.reqError "down") 5
      [{ m := .GET, path := "/epics", out := .success },
       { m := .GET, path := "/projects", out := .success }]
      { auth := { token := some "tk", expiration := 10 }, cl := none }).2.filter
      TEv.isSend).length = 2 from rfl] at h
  exact absurd h (by omega)

/-- Claim C7 as amended: on a fresh `TaigaClient`, `get_token` is
invoked exactly once — before the first request is sent, when the
underlying client is established — and every request of the client's
lifetime is sent with header `Authorization: Bearer <that token>`;
subsequent requests reuse the stored header without invoking
`get_token` again. -/
theorem token_once_per_client (cfg : Settings) (aenv : AuthResp) (now : Int)
    (ops : List Op) (st : AuthSt) (tok : String)
    (hok : (get_token cfg aenv now st).2.2 = .ok tok) :
    (ops = [] →
      (runOps cfg aenv now ops { auth := st, cl := none }).2 = []) ∧
    (∀ op ops', ops = op :: ops' →
      ∃ tr', (runOps cfg aenv now ops { auth := st, cl := none }).2
          = TEv.tokenReq :: tr' ∧
        ∀ ev ∈ tr', ∃ m p, ev = TEv.send m p ("Bearer " ++ tok)) := by
  constructor
  · intro h
    subst h
    rfl
  · intro op ops' h
    subst h
    unfold runOps
    have hDf := doRequest_first cfg aenv now op.m op.path op.out st tok hok
    rcases hD : doRequest cfg aenv now op.m op.path op.out
        { auth := st, cl := none } with ⟨s', tr, r⟩
    rw [hD] at hDf
    simp only at hDf
    cases r with
    | error e =>
        dsimp only
        exact ⟨[TEv.send op.m op.path ("Bearer " ++ tok)], by rw [hDf.2],
          by intro ev hev; simp only [List.mem_singleton] at hev
             exact ⟨op.m, op.path, hev⟩⟩
    | ok u =>
        dsimp only
        obtain ⟨_, hrest⟩ := runOps_established cfg aenv now ops' s' tok hDf.1
        refine ⟨TEv.send op.m op.path ("Bearer " ++ tok)
            :: (runOps cfg aenv now ops' s').2, ?_, ?_⟩
        · rw [hDf.2]
          rfl
        · intro ev hev
          rcases List.mem_cons.mp hev with h1 | h2
          · exact ⟨op.m, op.path, h1⟩
          · exact hrest ev h2

/-- Full characterization of the `fetch_all` loop: starting at page
`start` with `fuel` iterations allowed, some `1 ≤ n ≤ fuel` pages are
requested — consecutively from `start` — the items are the
concatenation of the decoded pages in request order, no page before
the last was short, and the last page is short unless the fuel ran
out. -/
theorem fetchLoop_spec {J α : Type} (net : Int → List J) (dec : J → α)
    (ps : Int) (hps : 1 ≤ ps) :
    ∀ (fuel : Nat) (start : Int), 1 ≤ fuel →
    ∃ n : Nat, 1 ≤ n ∧ n ≤ fuel ∧
      (fetchLoop net dec ps start fuel).1 = intRange start n ∧
      (fetchLoop net dec ps start fuel).2
        = ((intRange start n).map (fun p => (net p).map dec)).flatten ∧
      (∀ i : Nat, i + 1 < n → ps ≤ ((net (start + (i : Int))).length : Int)) ∧
      (n = fuel ∨ ((net (start + (n : Int) - 1)).length : Int) < ps) := by
  intro fuel
  induction fuel with
  | zero =>
      intro start hf
      exact absurd hf (by omega)
  | succ f ih =>
      intro start _
      by_cases he : (net start).isEmpty = true
      · have hnil : net start = [] := List.isEmpty_iff.mp he
        have hstep : fetchLoop net dec ps start (f + 1) = ([start], []) := by
          unfold fetchLoop
          simp [he]
        refine ⟨1, le_refl 1, by omega, ?_, ?_, ?_, ?_⟩
        · rw [hstep]; simp [intRange]
        · rw [hstep]; simp [intRange, hnil]
        · intro i hi; omega
        · right
          have harg : start + ((1:Nat) : Int) - 1 = start := by push_cast; ring
          rw [harg, hnil]
          simpa using hps
      · have he' : (net start).isEmpty = false := by simpa using he
        by_cases hshort : ((net start).length : Int) < ps
        · have hstep : fetchLoop net dec ps start (f + 1)
              = ([start], (net start).map dec) := by
            unfold fetchLoop
            simp [he', hshort]
          refine ⟨1, le_refl 1, by omega, ?_, ?_, ?_, ?_⟩
          · rw [hstep]; simp [intRange]
          · rw [hstep]; simp [intRange]
          · intro i hi; omega
          · right
            have harg : start + ((1:Nat) : Int) - 1 = start := by push_cast; ring
            rw [harg]
            exact hshort
        · have hstep : fetchLoop net dec ps start (f + 1)
              = (start :: (fetchLoop net dec ps (start + 1) f).1,
                 (net start).map dec ++ (fetchLoop net dec ps (start + 1) f).2) := by
            conv_lhs => rw [fetchLoop]
            simp [he', hshort]
          rcases Nat.eq_zero_or_pos f with hf0 | hfpos
          · subst hf0
            refine ⟨1, le_refl 1, le_refl 1, ?_, ?_, ?_, Or.inl rfl⟩
            · rw [hstep]
              simp [fetchLoop, intRange]
            · rw [hstep]
              simp [fetchLoop, intRange]
            · intro i hi; omega
          · obtain ⟨n', h1, h2, hreq, hitems, hidx, hlast⟩ :=
              ih (start + 1) hfpos
            refine ⟨n' + 1, by omega, by omega, ?_, ?_, ?_, ?_⟩
            · rw [hstep]
              simp [intRange, hreq]
            · rw [hstep]
              simp [intRange, hitems]
            · intro i hi
              match i with
              | 0 =>
                  have : start + ((0:Nat) : Int) = start := by push_cast; ring
                  rw [this]
                  omega
              | j + 1 =>
                  have hj := hidx j (by omega)
                  have harg : start + 1 + (j : Int) = start + ((j+1 : Nat) : Int) := by
                    push_cast; ring
                  rwa [harg] at hj
            · rcases hlast with hfeq | hsh
              · exact Or.inl (by omega)
              · right
                have harg : start + 1 + (n' : Int) - 1
                    = start + ((n' + 1 : Nat) : Int) - 1 := by
                  push_cast; ring
                rwa [harg] at hsh

/-- The parametric pagination function satisfies the fetch-all
aggregation contract whenever the page size is in range. -/
theorem listPaged_fetch_all {J α : Type} (path : String) (dec : J → α)
    (net : Option Int → List J) (pid ps : Int) (page : Option Int)
    (hps1 : 1 ≤ ps) (hps2 : ps ≤ 100) :
    FetchAllBehaviour path dec net pid ps
      (listPaged path dec net pid ps page true) := by
  obtain ⟨n, hn1, hn2, hreq, hitems, hidx, hlast⟩ :=
    fetchLoop_spec (fun p => net (some p)) dec ps hps1 1000 1 (by omega)
  have hres : listPaged path dec net pid ps page true
      = .ok ((fetchLoop (fun p => net (some p)) dec ps 1 1000).1.map
          (fun p => { path := path, params := { project := pid, page_size := ps, page := some p } }))
        (fetchLoop (fun p => net (some p)) dec ps 1 1000).2 := by
    unfold listPaged
    have hb : (decide (ps < 1) || decide (100 < ps)) = false := by
      simp only [Bool.or_eq_false_iff, decide_eq_false_iff_not]
      omega
    simp [hb]
  refine ⟨n, hn1, hn2, ?_, ?_, ?_⟩
  · rw [hres, hreq, hitems]
  · intro p hp1 hp2
    have h := hidx (p - 1).toNat (by omega)
    simp only at h
    have harg : (1 : Int) + (((p - 1).toNat : Nat) : Int) = p := by omega
    rwa [harg] at h
  · rcases hlast with hfeq | hsh
    · exact Or.inl hfeq
    · right
      have harg : (1 : Int) + (n : Int) - 1 = (n : Int) := by ring
      rwa [harg] at hsh

/-- Remote fixture with pages of sizes 100, 100, 37 (values numbered
in request order). -/
def net37 (q : Option Int) : List Nat :=
  match q with
  | some p =>
      if p = 1 then List.range' 0 100
      else if p = 2 then List.range' 100 100
      else if p = 3 then List.range' 200 37
      else []
  | none => []

/-- Remote fixture whose every page is empty. -/
def netNil (_ : Option Int) : List Nat := []

set_option maxRecDepth 10000 in
/-- Claim C1: with `fetch_all = true` and `1 ≤ page_size ≤ 100`, both
list operations request pages 1, 2, ... in order with
`{project, page_size, page}`, append each page's items in request
order, and stop at the first page that is empty or shorter than
`page_size`, or after 1000 pages, whichever comes first.  In
particular, for page sizes [100, 100, 37] at `page_size = 100` they
issue exactly 3 requests returning the 237 items in request order,
and for an empty first page they issue exactly 1 request returning
the empty sequence. -/
theorem paged_fetch_all_spec (ps : Int) (hps1 : 1 ≤ ps) (hps2 : ps ≤ 100)
    {J E U : Type} (decE : J → E) (decU : J → U)
    (net : Option Int → List J) (pid : Int) (page : Option Int) :
    FetchAllBehaviour "/epics" decE net pid ps
      (list_epics decE net pid ps page true) ∧
    FetchAllBehaviour "/userstories" decU net pid ps
      (list_user_stories decU net pid ps page true) ∧
    list_epics (fun j : Nat => j) net37 1 100 none true
      = .ok
        [{ path := "/epics", params := { project := 1, page_size := 100, page := some 1 } },
         { path := "/epics", params := { project := 1, page_size := 100, page := some 2 } },
         { path := "/epics", params := { project := 1, page_size := 100, page := some 3 } }]
        (List.range 237) ∧
    list_user_stories (fun j : Nat => j) net37 1 100 none true
      = .ok
        [{ path := "/userstories", params := { project := 1, page_size := 100, page := some 1 } },
         { path := "/userstories", params := { project := 1, page_size := 100, page := some 2 } },
         { path := "/userstories", params := { project := 1, page_size := 100, page := some 3 } }]
        (List.range 237) ∧
    list_epics (fun j : Nat => j) netNil 1 100 none true
      = .ok
        [{ path := "/epics", params := { project := 1, page_size := 100, page := some 1 } }]
        [] ∧
    list_user_stories (fun j : Nat => j) netNil 1 100 none true
      = .ok
        [{ path := "/userstories", params := { project := 1, page_size := 100, page := some 1 } }]
        [] :=
  ⟨listPaged_fetch_all "/epics" decE net pid ps page hps1 hps2,
   listPaged_fetch_all "/userstories" decU net pid ps page hps1 hps2,
   by decide, by decide, by decide, by decide⟩

/-- Witness for C1 at `page_size = 100` on the [100, 100, 37]
fixture. -/
theorem paged_fetch_all_spec_witness :
    (1 ≤ (100 : Int) ∧ (100 : Int) ≤ 100) ∧
    FetchAllBehaviour "/epics" (fun j : Nat => j) net37 1 100
      (list_epics (fun j : Nat => j) net37 1 100 none true) :=
  ⟨⟨by decide, by decide⟩,
   (paged_fetch_all_spec 100 (by decide) (by decide)
      (fun j : Nat => j) (fun j : Nat => j) net37 1 none).1⟩

/-- Witness for the amended C7 at a cold start: no cached token, so
the `get_token` at client establishment authenticates; the trace of
one successful GET is headed by that single `get_token` invocation,
followed only by sends bearing the freshly obtained token. -/
theorem token_once_per_client_witness :
    (get_token cfg0 (.jsonOk (some "fresh")) 5 initAuthSt).2.2 = .ok "fresh" ∧
    ∃ tr', (runOps cfg0 (.jsonOk (some "fresh")) 5
        [{ m := .GET, path := "/epics", out := .success }]
        { auth := initAuthSt, cl := none }).2
      = TEv.tokenReq :: tr' ∧
      ∀ ev ∈ tr', ∃ m p, ev = TEv.send m p ("Bearer " ++ "fresh") :=
  ⟨rfl,
   (token_once_per_client cfg0 (.jsonOk (some "fresh")) 5
      [{ m := .GET, path := "/epics", out := .success }]
      initAuthSt "fresh" rfl).2
     { m := .GET, path := "/epics", out := .success } [] rfl⟩

/-- The sequence of page numbers the fetch-all loop requests does not
depend on the item decoder. -/
theorem fetchLoop_pages_indep {J α β : Type} (net : Int → List J)
    (decA : J → α) (decB : J → β) (ps : Int) :
    ∀ (fuel : Nat) (start : Int),
      (fetchLoop net decA ps start fuel).1
        = (fetchLoop net decB ps start fuel).1 := by
  intro fuel
  induction fuel with
  | zero => intro start; rfl
  | succ f ih =>
      intro start
      unfold fetchLoop
      dsimp only
      split_ifs <;> simp [ih]

/-- The query parameters of the requests a list call issued, `none`
when the call raised the validation error before any request. -/
def paramsOf {α : Type} : ListResult α → Option (List PageParams)
  | .valueError _ => none
  | .ok reqs _ => some (reqs.map (fun r => r.params))

/-- Claim C9: for every project id, page size, optional page,
fetch-all flag and remote response sequence, `list_epics` and
`list_user_stories` are the one parametric pagination function
`listPaged` instantiated at "/epics" resp. "/userstories" with their
item decoders, and they issue request sequences with identical query
parameters — the requests differ only in the resource path. -/
theorem pagination_single_function {J E U : Type} (decE : J → E)
    (decU : J → U) (net : Option Int → List J) (pid ps : Int)
    (page : Option Int) (fa : Bool) :
    list_epics decE net pid ps page fa
      = listPaged "/epics" decE net pid ps page fa ∧
    list_user_stories decU net pid ps page fa
      = listPaged "/userstories" decU net pid ps page fa ∧
    paramsOf (list_epics decE net pid ps page fa)
      = paramsOf (list_user_stories decU net pid ps page fa) := by
  refine ⟨rfl, rfl, ?_⟩
  unfold list_epics list_user_stories
  split_ifs with h1 h2 h3
  · rfl
  · rfl
  · simp only [paramsOf, List.map_map]
    rw [fetchLoop_pages_indep (fun p => net (some p)) decE decU ps 1000 1]
    rfl
  · rfl

end TaigaMCP
